import Mathlib

/-!
Shallow embedding of the video-game recommendation engine found in
`src/recommend.py`, `src/api.py` and `src/backend-fastapi/api.py`.

Modelling choices:
* Python sets of integer ids are `Finset ℤ`; Python floats are exact `ℚ`.
* Optional / possibly-missing document fields are `Option`.
* The Mongo `games`, `covers`, `genres`, `themes` collections are Lean lists,
  scanned in order; `find_one` is `List.find?`.
* The backend seed lookup interpolates the raw name, unescaped, into an
  anchored case-insensitive `$regex`; it is modelled by `reMatch`, a matcher
  for the PCRE fragment of literal characters, the dot, and the optional
  quantifier (other PCRE constructs are outside the modelled scope).
  `recommend.py` instead compares lowercased names for equality.
* The backend candidate query uses an inclusion projection that omits
  `remasters`; `projectGame` models it, so every candidate document carries
  an empty remasters set, exactly as in the program.
* `HTTPException(404)` is `Except.error`.
* `datetime.fromtimestamp(ts).year` is modelled as proleptic-Gregorian UTC
  conversion of the epoch timestamp (integer arithmetic, Hinnant's
  civil-from-days algorithm); `round` on floats is Mathlib's `round` on `ℚ`.
-/

attribute [local semireducible] Rat.mul Rat.inv Rat.add Rat.sub

deriving instance DecidableEq for Except

namespace VGR

/-- A game document, with exactly the fields the recommender reads
(`id`, `name`, `genres`, `keywords`, `themes`, `collections`,
`version_parent`, `parent_game`, `game_type`, `remasters`, `cover`,
`first_release_date`, `total_rating`). Absent list fields are modelled as the
empty `Finset` (the code defaults them with `.get(key, [])`), genuinely
optional scalar fields as `Option`. -/
structure Game where
  id : ℤ
  name : String
  genres : Finset ℤ
  keywords : Finset ℤ
  themes : Finset ℤ
  collections : Finset ℤ
  version_parent : Option ℤ
  parent_game : Option ℤ
  game_type : Option ℤ
  remasters : Finset ℤ
  cover : Option ℤ
  first_release_date : Option ℤ
  total_rating : Option ℚ
  deriving DecidableEq

/-- Stable insertion into a list that is sorted descending by `key`:
the new element goes in front of the first strictly-smaller key, after
all earlier elements of equal key. -/
def insertDesc {α : Type} (key : α → ℚ) (x : α) : List α → List α
  | [] => [x]
  | y :: ys => if key x < key y then y :: insertDesc key x ys else x :: y :: ys

/-- `list.sort(key=lambda x: x[score], reverse=True)`: a stable descending
sort by `key`, as insertion sort. -/
def sortDesc {α : Type} (key : α → ℚ) : List α → List α
  | [] => []
  | x :: xs => insertDesc key x (sortDesc key xs)

/-- Python `str.lower()`, used for the case-insensitive name comparison:
lowercase every character of the string. -/
def pyLower (s : String) : String := ⟨s.data.map Char.toLower⟩

/-- One pattern atom against one subject character: the PCRE dot matches any
character, and a literal matches case-insensitively (the regex is built with
option "i"). -/
def atomMatch (a c : Char) : Bool := a == '.' || a.toLower == c.toLower

/-- The PCRE metacharacters: a name containing none of these interpolates
into a regex that matches it literally. -/
def reMetachars : List Char := "\\^$.|?*+()[]\x7b\x7d".data

/-- The string contains no PCRE metacharacter. -/
def regexFree (s : String) : Bool := s.data.all (fun c => decide (c ∉ reMetachars))

/-- Full-match semantics of the anchored pattern the backend builds by
interpolating a raw game name into the regex of line 115, for the PCRE
fragment of literal characters, the any-character dot, and the optional
quantifier applied to the preceding atom. Characters outside this fragment
are treated as literals; names using other PCRE constructs (groups, classes,
alternation, escapes, repetition braces, a leading quantifier) are outside
the modelled scope. Matching is case-insensitive. -/
def reMatch : List Char → List Char → Bool
  | [], s => s.isEmpty
  | [a], s =>
    match s with
    | [c] => atomMatch a c
    | _ => false
  | a :: b :: ps, s =>
    if b = '?' then
      reMatch ps s
        || (match s with
            | [] => false
            | c :: cs => atomMatch a c && reMatch ps cs)
    else
      match s with
      | [] => false
      | c :: cs => atomMatch a c && reMatch (b :: ps) cs

/-- The seed lookup of the API files
(`find_one({"name": {"$regex": f"^{liked_game_name}$", "$options": "i"}})`,
backend api.py line 115): the raw name is interpolated, unescaped, into an
anchored case-insensitive regex, so the lookup is regex matching of the
name-as-pattern against each stored name — not literal equality. First match
in catalog order. -/
def findSeed (catalog : List Game) (liked_game_name : String) : Option Game :=
  catalog.find? (fun g => reMatch liked_game_name.data g.name.data)

namespace Recommend

/-- `calculate_jaccard_similarity` from `src/recommend.py` (lines 7-14).
`not set1` is Python emptiness truthiness. -/
def calculate_jaccard_similarity (set1 set2 : Finset ℤ) : ℚ :=
  if set1 = ∅ ∧ set2 = ∅ then 1
  else if set1 = ∅ ∨ set2 = ∅ then 0
  else
    let intersection := (set1 ∩ set2).card
    let union := (set1 ∪ set2).card
    if union ≠ 0 then (intersection : ℚ) / (union : ℚ) else 0

/-- One output entry of `recommend_games_jaccard`: `{'name', 'score', 'id'}`. -/
structure RecEntry where
  name : String
  score : ℚ
  id : ℤ
  deriving DecidableEq

/-- The body of the candidate loop of `recommend_games_jaccard`
(lines 32-49): skip the seed by id equality, score by weighted Jaccard
similarity, keep only strictly positive scores. -/
def scoreEntry (seed_game : Game) (genre_weight keyword_weight theme_weight : ℚ)
    (game : Game) : Option RecEntry :=
  if game.id = seed_game.id then none
  else
    let genre_sim := calculate_jaccard_similarity seed_game.genres game.genres
    let keyword_sim := calculate_jaccard_similarity seed_game.keywords game.keywords
    let theme_sim := calculate_jaccard_similarity seed_game.themes game.themes
    let total_similarity := genre_weight * genre_sim + keyword_weight * keyword_sim
      + theme_weight * theme_sim
    if 0 < total_similarity then some ⟨game.name, total_similarity, game.id⟩ else none

/-- The seed-resolution loop of recommend.py lines 17-21: the first game
whose lowercased name equals the lowercased liked name (plain `str.lower()`
equality — unlike the regex lookup of the API files). -/
def findSeedLower (all_games : List Game) (liked_game_name : String) : Option Game :=
  all_games.find? (fun g => pyLower g.name == pyLower liked_game_name)

/-- `recommend_games_jaccard` from `src/recommend.py` (lines 16-52): find the
seed by lowercased-name equality (returning `[]` when absent, as the script
does), score every other game with `scoreEntry`, sort descending, truncate to
`top_n`. -/
def recommend_games_jaccard (liked_game_name : String) (all_games : List Game)
    (top_n : ℕ) (genre_weight keyword_weight theme_weight : ℚ) : List RecEntry :=
  match findSeedLower all_games liked_game_name with
  | none => []
  | some seed_game =>
    let recommendations := all_games.filterMap
      (scoreEntry seed_game genre_weight keyword_weight theme_weight)
    (sortDesc RecEntry.score recommendations).take top_n

end Recommend

namespace ApiV1

/-- `calculate_jaccard_similarity` from `src/api.py` (lines 42-51); the same
logic as the `recommend.py` version. -/
def calculate_jaccard_similarity (set1 set2 : Finset ℤ) : ℚ :=
  if set1 = ∅ ∧ set2 = ∅ then 1
  else if set1 = ∅ ∨ set2 = ∅ then 0
  else
    let intersection_len := (set1 ∩ set2).card
    let union_len := (set1 ∪ set2).card
    if union_len ≠ 0 then (intersection_len : ℚ) / (union_len : ℚ) else 0

end ApiV1

namespace BackendApi

/-- `calculate_jaccard_similarity` from `src/backend-fastapi/api.py`
(lines 88-95): `0.0` when the union is empty (both sets empty), else
intersection size over union size. -/
def calculate_jaccard_similarity (set1 set2 : Finset ℤ) : ℚ :=
  let intersection_len := (set1 ∩ set2).card
  let union_len := (set1 ∪ set2).card
  if union_len = 0 then 0
  else (intersection_len : ℚ) / (union_len : ℚ)

/-- The weighted similarity of lines 152-158 of `src/backend-fastapi/api.py`:
`genre_weight * genre_sim + keyword_weight * keyword_sim + theme_weight * theme_sim`,
seed sets always passed as the first argument. -/
def total_similarity (genre_weight keyword_weight theme_weight : ℚ)
    (seed_game game : Game) : ℚ :=
  genre_weight * calculate_jaccard_similarity seed_game.genres game.genres
  + keyword_weight * calculate_jaccard_similarity seed_game.keywords game.keywords
  + theme_weight * calculate_jaccard_similarity seed_game.themes game.themes

/-- One entry of `potential_recommendations` (lines 174-178):
`{'game_data', 'score', 'from_same_collection'}`. -/
structure ScoredGame where
  game_data : Game
  score : ℚ
  from_same_collection : Bool
  deriving DecidableEq

/-- The retention test of line 173: keep the candidate only when its final
score is strictly positive, `version_parent` is absent, `parent_game` is
absent or the seed's id, and `game_type` is not 14 (Python `None != 14` is
true, hence `≠ some 14` on the `Option`). -/
def retainCandidate (seed_game : Game) (score : ℚ) (from_same_collection : Bool)
    (game : Game) : Option ScoredGame :=
  if 0 < score ∧ game.version_parent = none
      ∧ (game.parent_game = none ∨ game.parent_game = some seed_game.id)
      ∧ game.game_type ≠ some 14
  then some ⟨game, score, from_same_collection⟩ else none

/-- One iteration of the candidate loop (lines 147-178): when
`prioritize_series` holds and the candidate shares a collection with the seed,
version-parent/child pairs and remaster pairs are skipped (`continue`), and
surviving same-collection candidates get `series_bonus` added before the
retention test. The candidate `game` is a projected document (`projectGame`),
so its remasters set is always empty and the `seed_game.id ∈ game.remasters`
half of the line-167 test — written in the code — can never fire; only
`game.id ∈ seed_game.remasters` is operative, the seed being unprojected. -/
def processCandidate (seed_game : Game) (genre_weight keyword_weight theme_weight : ℚ)
    (prioritize_series : Bool) (series_bonus : ℚ) (game : Game) : Option ScoredGame :=
  let base := total_similarity genre_weight keyword_weight theme_weight seed_game game
  if prioritize_series = true ∧ 0 < (seed_game.collections ∩ game.collections).card then
    if game.version_parent = some seed_game.id ∨ seed_game.version_parent = some game.id then
      none
    else if game.id ∈ seed_game.remasters ∨ seed_game.id ∈ game.remasters then
      none
    else retainCandidate seed_game (base + series_bonus) true game
  else retainCandidate seed_game base false game

/-- The final score a candidate carries into the retention test of line 173:
the weighted similarity, plus `series_bonus` exactly when `prioritize_series`
holds and a collection is shared. -/
def finalScore (genre_weight keyword_weight theme_weight : ℚ)
    (prioritize_series : Bool) (series_bonus : ℚ) (seed_game game : Game) : ℚ :=
  total_similarity genre_weight keyword_weight theme_weight seed_game game
    + (if prioritize_series = true ∧ 0 < (seed_game.collections ∩ game.collections).card
       then series_bonus else 0)

/-- A `covers` collection document: `id` and an optional `url`. -/
structure Cover where
  id : ℤ
  url : Option String
  deriving DecidableEq

/-- A `genres`/`themes` lookup document: `id` and an optional display `name`. -/
structure NamedDoc where
  id : ℤ
  name : Option String
  deriving DecidableEq

/-- Cover-URL resolution (lines 186-194): `if cover_id:` is Python truthiness
(so id `0` is treated as missing), then `find_one` in `covers`, then a truthy
`url` has its last `/`-segment appended to the fixed size prefix. -/
def coverUrlOf (covers : List Cover) (cover : Option ℤ) : Option String :=
  match cover with
  | none => none
  | some cover_id =>
    if cover_id = 0 then none
    else
      match covers.find? (fun c => c.id == cover_id) with
      | none => none
      | some cover_doc =>
        match cover_doc.url with
        | none => none
        | some url =>
          if url = "" then none
          else some ("https://images.igdb.com/igdb/image/upload/t_cover_big/"
            ++ (url.splitOn "/").getLastD "")

/-- Proleptic-Gregorian year of a day count relative to 1970-01-01
(Hinnant's civil-from-days, year component only). -/
def civilYearFromDays (z0 : ℤ) : ℤ :=
  let z := z0 + 719468
  let era := z.fdiv 146097
  let doe := z - era * 146097
  let yoe := (doe - doe.fdiv 1460 + doe.fdiv 36524 - doe.fdiv 146096).fdiv 365
  let y := yoe + era * 400
  let doy := doe - (365 * yoe + yoe.fdiv 4 - yoe.fdiv 100)
  let mp := (5 * doy + 2).fdiv 153
  let m := mp + (if mp < 10 then 3 else -9)
  if m ≤ 2 then y + 1 else y

/-- `datetime.fromtimestamp(ts).year` (line 200), modelled as UTC conversion:
the calendar year of the day `⌊ts / 86400⌋` relative to the epoch. -/
def yearFromTimestamp (ts : ℤ) : ℤ := civilYearFromDays (ts.fdiv 86400)

/-- The `release_year` computation of lines 196-202.
`if first_release_timestamp:` is Python truthiness, so both a missing and a
zero timestamp leave the year `None`; every other timestamp (either sign) is
converted with `datetime.fromtimestamp`. -/
def releaseYearOf (first_release_date : Option ℤ) : Option ℤ :=
  match first_release_date with
  | none => none
  | some ts => if ts = 0 then none else some (yearFromTimestamp ts)

/-- Genre/theme display-name resolution (lines 204-214): nothing is looked up
when the id list is empty (truthiness), otherwise the documents whose `id` is
in the game's id set are kept, in collection order, and truthy names
extracted. -/
def namesOf (table : List NamedDoc) (ids : Finset ℤ) : List String :=
  if ids = ∅ then []
  else (table.filter (fun d => decide (d.id ∈ ids))).filterMap
    (fun d => match d.name with
      | none => none
      | some s => if s = "" then none else some s)

/-- `round(x, 4)` applied to the score (line 221), over `ℚ`. -/
def roundTo4 (q : ℚ) : ℚ := (round (q * 10000) : ℤ) / 10000

/-- One entry of `recommendations_data` (lines 219-229). -/
structure RecOut where
  name : String
  score : ℚ
  id : ℤ
  cover_url : Option String
  release_year : Option ℤ
  genres : List String
  themes : List String
  total_rating : Option ℤ
  from_same_collection : Bool
  deriving DecidableEq

/-- Enrichment of one retained candidate (lines 183-229). -/
def enrichOne (covers : List Cover) (genreTable themeTable : List NamedDoc)
    (rec_item : ScoredGame) : RecOut :=
  ⟨rec_item.game_data.name,
   roundTo4 rec_item.score,
   rec_item.game_data.id,
   coverUrlOf covers rec_item.game_data.cover,
   releaseYearOf rec_item.game_data.first_release_date,
   namesOf genreTable rec_item.game_data.genres,
   namesOf themeTable rec_item.game_data.themes,
   rec_item.game_data.total_rating.map (fun r => round r),
   rec_item.from_same_collection⟩

/-- The inclusion projection of the candidate query (lines 130-141): the
kept fields are name, id, genres, keywords, themes, cover,
first_release_date, total_rating, collections, version_parent, parent_game
and game_type. `remasters` is NOT in the projection, so every candidate
document the loop sees has `game.get('remasters', []) == []` — modelled as
the empty set. -/
def projectGame (g : Game) : Game :=
  ⟨g.id, g.name, g.genres, g.keywords, g.themes, g.collections, g.version_parent,
   g.parent_game, g.game_type, ∅, g.cover, g.first_release_date, g.total_rating⟩

/-- `recommend_games_from_mongo` from `src/backend-fastapi/api.py`
(lines 97-231). The Mongo database handle is modelled by the four collection
lists; the regex seed lookup is `findSeed`, the id-based `$ne` query filter
with its inclusion projection is the list filter followed by `projectGame`,
the candidate loop is `filterMap processCandidate`, the `sort`/slice is
`sortDesc`/`take`, and `HTTPException(404)` is `Except.error`. -/
def recommend_games_from_mongo (liked_game_name : String) (catalog : List Game)
    (covers : List Cover) (genreTable themeTable : List NamedDoc) (top_n : ℕ)
    (genre_weight keyword_weight theme_weight : ℚ)
    (prioritize_series : Bool) (series_bonus : ℚ) : Except String (List RecOut) :=
  match findSeed catalog liked_game_name with
  | none => Except.error ("Game " ++ liked_game_name ++ " not found in the database.")
  | some seed_game =>
    let cands := (catalog.filter (fun g => g.id != seed_game.id)).map projectGame
    let potential_recommendations := cands.filterMap
      (processCandidate seed_game genre_weight keyword_weight theme_weight
        prioritize_series series_bonus)
    let top_potentials := (sortDesc ScoredGame.score potential_recommendations).take top_n
    Except.ok (top_potentials.map (enrichOne covers genreTable themeTable))

end BackendApi

/-- Sample item: a base game with genres `{1,2}`, keywords `{5}`, themes `{7}`,
collection `{10}`. -/
def gSeed : Game := ⟨1, "Alpha", {1, 2}, {5}, {7}, {10}, none, none, none, ∅, none,
  some 1000000000, some 90⟩

/-- Sample item: shares collection `10` with `gSeed` and has
`version_parent = some gSeed.id`. -/
def gDup : Game := ⟨2, "Alpha Remaster", {1, 2}, {5}, {7}, {10}, some 1, none, none, ∅,
  none, none, none⟩

/-- Sample item: an eligible base game with the same attribute sets as `gSeed`
but no shared collection. -/
def gOk : Game := ⟨3, "Beta", {1, 2}, {5}, {7}, ∅, none, none, none, ∅, none, none, none⟩

/-- Sample item: a perfect attribute match whose `game_type` is the excluded
code 14. -/
def gDLC : Game := ⟨4, "Gamma", {1, 2}, {5}, {7}, ∅, none, none, some 14, ∅, none,
  none, none⟩

/-- Sample item: attribute sets disjoint from `gSeed`, release timestamp 0. -/
def gZero : Game := ⟨9, "Delta", {3}, {6}, {8}, ∅, none, none, none, ∅, none,
  some 0, none⟩

/-- Sample item: candidate with genres `{3}` only. -/
def gC1 : Game := ⟨5, "Eta", {3}, ∅, ∅, ∅, none, none, none, ∅, none, none, none⟩

/-- Sample item: `gC1` with one extra genre, keyword and theme shared with
`gSeed`. -/
def gC2 : Game := ⟨6, "Thetaa", {3, 1}, {5}, {7}, ∅, none, none, none, ∅, none,
  none, none⟩

/-- The enriched record the backend recommender produces for `gOk` against
seed `gSeed` with weights 0.4/0.3/0.3 and empty lookup tables. -/
def recBeta : BackendApi.RecOut := ⟨"Beta", 1, 3, none, none, [], [], none, false⟩

/-- Sample item: shares collection `10` with `gSeed` and lists `gSeed.id` in
its own remasters set — the direction of the line-167 test that the
candidate projection makes inoperative. -/
def gRem : Game := ⟨2, "Alpha HD", {1, 2}, {5}, {7}, {10}, none, none, none, {1},
  none, none, none⟩

/-- Sample item whose name contains the PCRE optional quantifier. -/
def gGolf : Game := ⟨20, "What the Golf?", {1}, ∅, ∅, ∅, none, none, none, ∅, none,
  none, none⟩

/-- Sample item whose name is matched by the pattern "A.C" via the PCRE dot. -/
def gABC : Game := ⟨21, "ABC", {1}, ∅, ∅, ∅, none, none, none, ∅, none, none, none⟩

/-! Helper lemmas about the stable descending sort. -/

theorem mem_insertDesc {α : Type} (key : α → ℚ) (x : α) (l : List α) (y : α) :
    y ∈ insertDesc key x l ↔ y = x ∨ y ∈ l := by
  induction l with
  | nil => simp [insertDesc]
  | cons z zs ih =>
    simp only [insertDesc]
    split
    · simp only [List.mem_cons, ih]
      tauto
    · simp only [List.mem_cons]

theorem mem_sortDesc {α : Type} (key : α → ℚ) (l : List α) (y : α) :
    y ∈ sortDesc key l ↔ y ∈ l := by
  induction l with
  | nil => simp [sortDesc]
  | cons z zs ih =>
    simp only [sortDesc, mem_insertDesc, List.mem_cons, ih]

theorem length_insertDesc {α : Type} (key : α → ℚ) (x : α) (l : List α) :
    (insertDesc key x l).length = l.length + 1 := by
  induction l with
  | nil => simp [insertDesc]
  | cons z zs ih =>
    simp only [insertDesc]
    split
    · simp only [List.length_cons, ih]
    · simp [List.length_cons]

theorem length_sortDesc {α : Type} (key : α → ℚ) (l : List α) :
    (sortDesc key l).length = l.length := by
  induction l with
  | nil => rfl
  | cons z zs ih => simp only [sortDesc, length_insertDesc, List.length_cons, ih]

theorem sorted_insertDesc {α : Type} (key : α → ℚ) (x : α) (l : List α)
    (hl : l.Sorted (fun a b => key b ≤ key a)) :
    (insertDesc key x l).Sorted (fun a b => key b ≤ key a) := by
  induction l with
  | nil => simp [insertDesc]
  | cons z zs ih =>
    rw [List.sorted_cons] at hl
    obtain ⟨hz, hzs⟩ := hl
    simp only [insertDesc]
    split
    · rename_i hlt
      rw [List.sorted_cons]
      refine ⟨?_, ih hzs⟩
      intro b hb
      rcases (mem_insertDesc key x zs b).1 hb with rfl | hbz
      · exact le_of_lt hlt
      · exact hz b hbz
    · rename_i hge
      rw [List.sorted_cons]
      refine ⟨?_, List.sorted_cons.2 ⟨hz, hzs⟩⟩
      intro b hb
      rcases List.mem_cons.1 hb with rfl | hbzs
      · exact le_of_not_lt hge
      · exact le_trans (hz b hbzs) (le_of_not_lt hge)

theorem sorted_sortDesc {α : Type} (key : α → ℚ) (l : List α) :
    (sortDesc key l).Sorted (fun a b => key b ≤ key a) := by
  induction l with
  | nil => simp [sortDesc]
  | cons z zs ih => exact sorted_insertDesc key z (sortDesc key zs) ih

theorem length_filterMap_eq_countP {α β : Type} (f : α → Option β) (l : List α) :
    (l.filterMap f).length = l.countP (fun a => (f a).isSome) := by
  induction l with
  | nil => rfl
  | cons x xs ih =>
    rw [List.filterMap_cons, List.countP_cons]
    cases hfx : f x with
    | none => simp [hfx, ih]
    | some b => simp [hfx, ih]

namespace BackendApi

/-! Inversion lemmas for the candidate loop. -/

theorem retainCandidate_eq_some {seed_game game : Game} {score : ℚ} {fsc : Bool}
    {sg : ScoredGame} (h : retainCandidate seed_game score fsc game = some sg) :
    sg = ⟨game, score, fsc⟩ ∧ 0 < score ∧ game.version_parent = none
      ∧ (game.parent_game = none ∨ game.parent_game = some seed_game.id)
      ∧ game.game_type ≠ some 14 := by
  unfold retainCandidate at h
  split at h
  · rename_i hc
    exact ⟨(Option.some.inj h).symm, hc.1, hc.2.1, hc.2.2.1, hc.2.2.2⟩
  · exact absurd h (by simp)

theorem processCandidate_eq_some {seed_game game : Game} {gw kw tw bonus : ℚ}
    {pr : Bool} {sg : ScoredGame}
    (h : processCandidate seed_game gw kw tw pr bonus game = some sg) :
    sg.game_data = game ∧ 0 < sg.score ∧ game.version_parent = none
      ∧ (game.parent_game = none ∨ game.parent_game = some seed_game.id)
      ∧ game.game_type ≠ some 14 := by
  simp only [processCandidate] at h
  split at h
  · split at h
    · exact absurd h (by simp)
    · split at h
      · exact absurd h (by simp)
      · obtain ⟨hsg, hpos, hvp, hpg, hgt⟩ := retainCandidate_eq_some h
        exact ⟨by rw [hsg], by rw [hsg]; exact hpos, hvp, hpg, hgt⟩
  · obtain ⟨hsg, hpos, hvp, hpg, hgt⟩ := retainCandidate_eq_some h
    exact ⟨by rw [hsg], by rw [hsg]; exact hpos, hvp, hpg, hgt⟩

theorem processCandidate_dup_none {seed_game game : Game} {gw kw tw bonus : ℚ}
    (hshare : 0 < (seed_game.collections ∩ game.collections).card)
    (hdup : game.version_parent = some seed_game.id ∨ seed_game.version_parent = some game.id
      ∨ game.id ∈ seed_game.remasters ∨ seed_game.id ∈ game.remasters) :
    processCandidate seed_game gw kw tw true bonus game = none := by
  simp only [processCandidate, eq_self_iff_true, true_and]
  rw [if_pos hshare]
  by_cases h1 : game.version_parent = some seed_game.id ∨ seed_game.version_parent = some game.id
  · rw [if_pos h1]
  · rw [if_neg h1]
    rcases hdup with h | h | h | h
    · exact absurd (Or.inl h) h1
    · exact absurd (Or.inr h) h1
    · rw [if_pos (Or.inl h)]
    · rw [if_pos (Or.inr h)]

theorem processCandidate_none_of_nonpos {seed_game game : Game} {gw kw tw bonus : ℚ}
    {pr : Bool} (h : finalScore gw kw tw pr bonus seed_game game ≤ 0) :
    processCandidate seed_game gw kw tw pr bonus game = none := by
  unfold finalScore at h
  simp only [processCandidate]
  split
  · rename_i hc
    rw [if_pos hc] at h
    split
    · rfl
    · split
      · rfl
      · unfold retainCandidate
        have : ¬(0 < total_similarity gw kw tw seed_game game + bonus
            ∧ game.version_parent = none
            ∧ (game.parent_game = none ∨ game.parent_game = some seed_game.id)
            ∧ game.game_type ≠ some 14) := fun hcond => absurd hcond.1 (not_lt.2 h)
        rw [if_neg this]
  · rename_i hc
    rw [if_neg hc, add_zero] at h
    unfold retainCandidate
    have : ¬(0 < total_similarity gw kw tw seed_game game
        ∧ game.version_parent = none
        ∧ (game.parent_game = none ∨ game.parent_game = some seed_game.id)
        ∧ game.game_type ≠ some 14) := fun hcond => absurd hcond.1 (not_lt.2 h)
    rw [if_neg this]

theorem recommend_ok_eq {liked : String} {catalog : List Game} {covers : List Cover}
    {genreTable themeTable : List NamedDoc} {top_n : ℕ} {gw kw tw bonus : ℚ} {pr : Bool}
    {seed_game : Game} (hseed : findSeed catalog liked = some seed_game) :
    recommend_games_from_mongo liked catalog covers genreTable themeTable top_n
        gw kw tw pr bonus
      = Except.ok (((sortDesc ScoredGame.score (List.filterMap
          (processCandidate seed_game gw kw tw pr bonus)
          ((List.filter (fun g => g.id != seed_game.id) catalog).map projectGame))).take
            top_n).map (enrichOne covers genreTable themeTable)) := by
  rw [recommend_games_from_mongo, hseed]

theorem mem_recommend_ok {liked : String} {catalog : List Game} {covers : List Cover}
    {genreTable themeTable : List NamedDoc} {top_n : ℕ} {gw kw tw bonus : ℚ} {pr : Bool}
    {seed_game : Game} {l : List RecOut} {r : RecOut}
    (hseed : findSeed catalog liked = some seed_game)
    (hok : recommend_games_from_mongo liked catalog covers genreTable themeTable top_n
      gw kw tw pr bonus = Except.ok l)
    (hr : r ∈ l) :
    ∃ game sg, game ∈ catalog ∧ game.id ≠ seed_game.id
      ∧ processCandidate seed_game gw kw tw pr bonus (projectGame game) = some sg
      ∧ r = enrichOne covers genreTable themeTable sg := by
  rw [recommend_ok_eq hseed] at hok
  have hl := (Except.ok.inj hok).symm
  subst hl
  obtain ⟨sg, hsg_take, hsg_r⟩ := List.mem_map.1 hr
  have hsg_sort := List.take_subset _ _ hsg_take
  have hsg_fm := (mem_sortDesc ScoredGame.score _ sg).1 hsg_sort
  obtain ⟨pg, hpg_mem, hpg_proc⟩ := List.mem_filterMap.1 hsg_fm
  obtain ⟨game, hg_filter, hpg_eq⟩ := List.mem_map.1 hpg_mem
  obtain ⟨hg_cat, hg_ne⟩ := List.mem_filter.1 hg_filter
  subst hpg_eq
  exact ⟨game, sg, hg_cat, by simpa using hg_ne, hpg_proc, hsg_r.symm⟩

end BackendApi

/-! Helper lemmas about the two Jaccard implementations. -/

theorem card_union_eq_zero_iff (A B : Finset ℤ) :
    (A ∪ B).card = 0 ↔ A = ∅ ∧ B = ∅ := by
  rw [Finset.card_eq_zero, Finset.union_eq_empty]

theorem backendJaccard_eq_div {A B : Finset ℤ} (hU : (A ∪ B).card ≠ 0) :
    BackendApi.calculate_jaccard_similarity A B
      = ((A ∩ B).card : ℚ) / ((A ∪ B).card : ℚ) := by
  simp only [BackendApi.calculate_jaccard_similarity]
  rw [if_neg hU]

theorem recommendJaccard_eq_div {A B : Finset ℤ} (hA : A ≠ ∅) (hB : B ≠ ∅) :
    Recommend.calculate_jaccard_similarity A B
      = ((A ∩ B).card : ℚ) / ((A ∪ B).card : ℚ) := by
  have hU : (A ∪ B).card ≠ 0 := by
    rw [Ne, card_union_eq_zero_iff]
    tauto
  simp only [Recommend.calculate_jaccard_similarity]
  rw [if_neg (by tauto), if_neg (by tauto), if_pos hU]

theorem backendJaccard_empty_left (B : Finset ℤ) :
    BackendApi.calculate_jaccard_similarity ∅ B = 0 := by
  simp only [BackendApi.calculate_jaccard_similarity]
  rw [Finset.empty_inter, Finset.empty_union]
  split
  · rfl
  · simp

theorem backendJaccard_empty_right (A : Finset ℤ) :
    BackendApi.calculate_jaccard_similarity A ∅ = 0 := by
  simp only [BackendApi.calculate_jaccard_similarity]
  rw [Finset.inter_empty, Finset.union_empty]
  split
  · rfl
  · simp

theorem recommendJaccard_empty_left {B : Finset ℤ} (hB : B ≠ ∅) :
    Recommend.calculate_jaccard_similarity ∅ B = 0 := by
  simp only [Recommend.calculate_jaccard_similarity]
  rw [if_neg (by tauto), if_pos (Or.inl trivial)]

theorem recommendJaccard_empty_right {A : Finset ℤ} (hA : A ≠ ∅) :
    Recommend.calculate_jaccard_similarity A ∅ = 0 := by
  simp only [Recommend.calculate_jaccard_similarity]
  rw [if_neg (by tauto), if_pos (Or.inr trivial)]

theorem backendJaccard_mono {S O K1 K2 : Finset ℤ} (h12 : K1 ⊆ K2) (hKS : K2 ⊆ S)
    (hOS : O ∩ S = ∅) :
    BackendApi.calculate_jaccard_similarity S (O ∪ K1)
      ≤ BackendApi.calculate_jaccard_similarity S (O ∪ K2) := by
  have hinter : ∀ {K : Finset ℤ}, K ⊆ S → S ∩ (O ∪ K) = K := by
    intro K hK
    rw [Finset.inter_union_distrib_left, Finset.inter_comm S O, hOS, Finset.empty_union]
    exact Finset.inter_eq_right.2 hK
  have hunion : ∀ {K : Finset ℤ}, K ⊆ S → S ∪ (O ∪ K) = S ∪ O := by
    intro K hK
    rw [← Finset.union_assoc]
    exact Finset.union_eq_left.2 (hK.trans Finset.subset_union_left)
  simp only [BackendApi.calculate_jaccard_similarity]
  rw [hinter (h12.trans hKS), hinter hKS, hunion (h12.trans hKS), hunion hKS]
  by_cases hc : (S ∪ O).card = 0
  · rw [if_pos hc, if_pos hc]
  · rw [if_neg hc, if_neg hc]
    have hpos : (0 : ℚ) < ((S ∪ O).card : ℚ) := by
      exact_mod_cast Nat.pos_of_ne_zero hc
    exact (div_le_div_iff_of_pos_right hpos).2 (by exact_mod_cast Finset.card_le_card h12)

/-- C1: the Jaccard similarity returns 1.0 on a pair of equal non-empty sets,
0.0 when exactly one of the two sets is empty, and intersection size over
union size — a value in [0,1] — when both sets are non-empty; for both the
backend-fastapi implementation and the recommend.py implementation. -/
theorem claim1_jaccard_similarity_cases (A B : Finset ℤ) :
    (A = B → A.Nonempty →
      BackendApi.calculate_jaccard_similarity A B = 1
      ∧ Recommend.calculate_jaccard_similarity A B = 1)
  ∧ ((A = ∅ ∧ B ≠ ∅) ∨ (A ≠ ∅ ∧ B = ∅) →
      BackendApi.calculate_jaccard_similarity A B = 0
      ∧ Recommend.calculate_jaccard_similarity A B = 0)
  ∧ (A.Nonempty → B.Nonempty →
      BackendApi.calculate_jaccard_similarity A B
          = ((A ∩ B).card : ℚ) / ((A ∪ B).card : ℚ)
      ∧ Recommend.calculate_jaccard_similarity A B
          = ((A ∩ B).card : ℚ) / ((A ∪ B).card : ℚ)
      ∧ 0 ≤ BackendApi.calculate_jaccard_similarity A B
      ∧ BackendApi.calculate_jaccard_similarity A B ≤ 1) := by
  refine ⟨?_, ?_, ?_⟩
  · rintro rfl hA
    have hAne : A ≠ ∅ := Finset.nonempty_iff_ne_empty.1 hA
    have hU : (A ∪ A).card ≠ 0 := by
      rw [Ne, card_union_eq_zero_iff]
      tauto
    have hcard : (A.card : ℚ) ≠ 0 := by
      rw [Ne, Nat.cast_eq_zero, Finset.card_eq_zero]
      exact hAne
    constructor
    · rw [backendJaccard_eq_div hU, Finset.inter_self, Finset.union_self, div_self hcard]
    · rw [recommendJaccard_eq_div hAne hAne, Finset.inter_self, Finset.union_self,
        div_self hcard]
  · rintro (⟨rfl, hB⟩ | ⟨hA, rfl⟩)
    · exact ⟨backendJaccard_empty_left B, recommendJaccard_empty_left hB⟩
    · exact ⟨backendJaccard_empty_right A, recommendJaccard_empty_right hA⟩
  · intro hA hB
    have hAne : A ≠ ∅ := Finset.nonempty_iff_ne_empty.1 hA
    have hBne : B ≠ ∅ := Finset.nonempty_iff_ne_empty.1 hB
    have hU : (A ∪ B).card ≠ 0 := by
      rw [Ne, card_union_eq_zero_iff]
      tauto
    have hBeq := backendJaccard_eq_div (A := A) (B := B) hU
    refine ⟨hBeq, recommendJaccard_eq_div hAne hBne, ?_, ?_⟩
    · rw [hBeq]
      exact div_nonneg (Nat.cast_nonneg _) (Nat.cast_nonneg _)
    · rw [hBeq]
      have hUpos : (0 : ℚ) < ((A ∪ B).card : ℚ) := by
        exact_mod_cast Nat.pos_of_ne_zero hU
      exact (div_le_one hUpos).2
        (by exact_mod_cast Finset.card_le_card Finset.inter_subset_union)

/-- Concrete instantiation of the C1 theorem at the non-empty pair
A = B = {1, 2}. -/
theorem claim1_witness :
    BackendApi.calculate_jaccard_similarity {1, 2} {1, 2} = 1
    ∧ Recommend.calculate_jaccard_similarity {1, 2} {1, 2} = 1 :=
  (claim1_jaccard_similarity_cases {1, 2} {1, 2}).1 rfl (by decide)

/-- C9: the recommend.py (and api.py) Jaccard implementation and the
backend-fastapi one return equal values on every pair with at least one
non-empty set, and differ exactly on (∅, ∅): the former returns 1.0, the
latter 0.0. -/
theorem claim9_jaccard_policy_divergence (A B : Finset ℤ) :
    ((A ≠ ∅ ∨ B ≠ ∅) →
      Recommend.calculate_jaccard_similarity A B
        = BackendApi.calculate_jaccard_similarity A B)
  ∧ ApiV1.calculate_jaccard_similarity A B = Recommend.calculate_jaccard_similarity A B
  ∧ Recommend.calculate_jaccard_similarity (∅ : Finset ℤ) ∅ = 1
  ∧ BackendApi.calculate_jaccard_similarity (∅ : Finset ℤ) ∅ = 0 := by
  refine ⟨?_, rfl, by decide, by decide⟩
  intro hAB
  by_cases hA : A = ∅
  · subst hA
    have hB : B ≠ ∅ := by tauto
    rw [recommendJaccard_empty_left hB, backendJaccard_empty_left B]
  · by_cases hB : B = ∅
    · subst hB
      rw [recommendJaccard_empty_right hA, backendJaccard_empty_right A]
    · have hU : (A ∪ B).card ≠ 0 := by
        rw [Ne, card_union_eq_zero_iff]
        tauto
      rw [recommendJaccard_eq_div hA hB, backendJaccard_eq_div hU]

/-- Concrete instantiation of the C9 theorem at A = {1}, B = ∅. -/
theorem claim9_witness :
    Recommend.calculate_jaccard_similarity {1} ∅
      = BackendApi.calculate_jaccard_similarity {1} ∅ :=
  (claim9_jaccard_policy_divergence {1} ∅).1 (Or.inl (by decide))

/-- C7: with non-negative weights, the combined weighted similarity is
monotonically non-decreasing in the shared attribute overlap: if candidate c2
has the same non-shared attribute ids as c1 (per attribute kind) and a
superset of c1's seed-shared ids, then c1's score is at most c2's. -/
theorem claim7_combined_score_monotone
    (gw kw tw : ℚ) (hgw : 0 ≤ gw) (hkw : 0 ≤ kw) (htw : 0 ≤ tw)
    (seed_game c1 c2 : Game)
    (Og Kg1 Kg2 Okw Kk1 Kk2 Oth Kt1 Kt2 : Finset ℤ)
    (h1g : c1.genres = Og ∪ Kg1) (h2g : c2.genres = Og ∪ Kg2)
    (hg12 : Kg1 ⊆ Kg2) (hgS : Kg2 ⊆ seed_game.genres)
    (hgO : Og ∩ seed_game.genres = ∅)
    (h1k : c1.keywords = Okw ∪ Kk1) (h2k : c2.keywords = Okw ∪ Kk2)
    (hk12 : Kk1 ⊆ Kk2) (hkS : Kk2 ⊆ seed_game.keywords)
    (hkO : Okw ∩ seed_game.keywords = ∅)
    (h1t : c1.themes = Oth ∪ Kt1) (h2t : c2.themes = Oth ∪ Kt2)
    (ht12 : Kt1 ⊆ Kt2) (htS : Kt2 ⊆ seed_game.themes)
    (htO : Oth ∩ seed_game.themes = ∅) :
    BackendApi.total_similarity gw kw tw seed_game c1
      ≤ BackendApi.total_similarity gw kw tw seed_game c2 := by
  unfold BackendApi.total_similarity
  rw [h1g, h2g, h1k, h2k, h1t, h2t]
  exact add_le_add (add_le_add
      (mul_le_mul_of_nonneg_left (backendJaccard_mono hg12 hgS hgO) hgw)
      (mul_le_mul_of_nonneg_left (backendJaccard_mono hk12 hkS hkO) hkw))
    (mul_le_mul_of_nonneg_left (backendJaccard_mono ht12 htS htO) htw)

/-- Concrete instantiation of the C7 theorem: gC2 adds genre 1, keyword 5 and
theme 7 (all shared with gSeed) on top of gC1's attributes. -/
theorem claim7_witness :
    BackendApi.total_similarity (2/5) (3/10) (3/10) gSeed gC1
      ≤ BackendApi.total_similarity (2/5) (3/10) (3/10) gSeed gC2 :=
  claim7_combined_score_monotone (2/5) (3/10) (3/10) (by decide) (by decide) (by decide)
    gSeed gC1 gC2 {3} ∅ {1} ∅ ∅ {5} ∅ ∅ {7}
    (by decide) (by decide) (by decide) (by decide) (by decide)
    (by decide) (by decide) (by decide) (by decide) (by decide)
    (by decide) (by decide) (by decide) (by decide) (by decide)

namespace Recommend

theorem scoreEntry_eq_some {seed_game game : Game} {gw kw tw : ℚ} {e : RecEntry}
    (h : scoreEntry seed_game gw kw tw game = some e) :
    e.id = game.id ∧ game.id ≠ seed_game.id := by
  simp only [scoreEntry] at h
  split at h
  · exact absurd h (by simp)
  · rename_i hid
    split at h
    · exact ⟨by rw [← Option.some.inj h], hid⟩
    · exact absurd h (by simp)

end Recommend

theorem roundTo4_mono {a b : ℚ} (h : a ≤ b) :
    BackendApi.roundTo4 a ≤ BackendApi.roundTo4 b := by
  unfold BackendApi.roundTo4
  have h2 : round (a * 10000) ≤ round (b * 10000) := by
    rw [round_eq, round_eq]
    exact Int.floor_mono (by linarith)
  have h3 : ((round (a * 10000) : ℤ) : ℚ) ≤ ((round (b * 10000) : ℤ) : ℚ) := by
    exact_mod_cast h2
  exact (div_le_div_iff_of_pos_right (by norm_num : (0:ℚ) < 10000)).2 h3

/-- C2 counterexample: gRem shares collection 10 with gSeed and lists
gSeed.id in its remasters set, yet it IS returned with the series bonus: the
candidate projection (lines 130-141) omits remasters, so the
seed-id-in-candidate-remasters half of the line-167 test never fires. -/
theorem claim2_counterexample :
    BackendApi.recommend_games_from_mongo "Alpha" [gSeed, gRem] [] [] [] 5
        (2/5) (3/10) (3/10) true (1/2)
      = Except.ok [⟨"Alpha HD", 3/2, 2, none, none, [], [], none, true⟩]
  ∧ gSeed.id ∈ gRem.remasters
  ∧ 0 < (gSeed.collections ∩ gRem.collections).card
  ∧ (⟨"Alpha HD", 3/2, 2, none, none, [], [], none, true⟩ : BackendApi.RecOut).id
      = gRem.id :=
  ⟨by decide, by decide, by decide, by decide⟩

/-- C2 (amended): when prioritize_series is on and a candidate shares a
collection with the seed, a candidate whose version_parent is the seed's id,
or that is the seed's version_parent, or whose id is listed in the seed's
remasters set, never appears in the result sequence, regardless of its score
(catalog ids assumed unique, as the data model requires). The fourth check
written at line 167 — the seed's id in the candidate's remasters — is
inoperative, because the candidate projection omits remasters. -/
theorem claim2_series_duplicates_never_returned
    (liked : String) (catalog : List Game) (covers : List BackendApi.Cover)
    (genreTable themeTable : List BackendApi.NamedDoc) (top_n : ℕ)
    (gw kw tw bonus : ℚ) (seed_game g : Game) (l : List BackendApi.RecOut)
    (hnodup : (catalog.map Game.id).Nodup)
    (hseed : findSeed catalog liked = some seed_game)
    (hok : BackendApi.recommend_games_from_mongo liked catalog covers genreTable themeTable
      top_n gw kw tw true bonus = Except.ok l)
    (hg : g ∈ catalog)
    (hshare : 0 < (seed_game.collections ∩ g.collections).card)
    (hdup : g.version_parent = some seed_game.id ∨ seed_game.version_parent = some g.id
      ∨ g.id ∈ seed_game.remasters) :
    ∀ r ∈ l, r.id ≠ g.id := by
  intro r hr hid
  obtain ⟨game, sg, hg_cat, hg_ne, hproc, hr_eq⟩ := BackendApi.mem_recommend_ok hseed hok hr
  have hgd := (BackendApi.processCandidate_eq_some hproc).1
  have hid2 : game.id = g.id := by
    rw [hr_eq] at hid
    simpa [BackendApi.enrichOne, hgd, BackendApi.projectGame] using hid
  have hgeq : game = g := List.inj_on_of_nodup_map hnodup hg_cat hg hid2
  have hdup4 : (BackendApi.projectGame g).version_parent = some seed_game.id
      ∨ seed_game.version_parent = some (BackendApi.projectGame g).id
      ∨ (BackendApi.projectGame g).id ∈ seed_game.remasters
      ∨ seed_game.id ∈ (BackendApi.projectGame g).remasters := by
    rcases hdup with h | h | h
    · exact Or.inl h
    · exact Or.inr (Or.inl h)
    · exact Or.inr (Or.inr (Or.inl h))
  have hshareP : 0 < (seed_game.collections ∩ (BackendApi.projectGame g).collections).card :=
    hshare
  rw [hgeq] at hproc
  rw [BackendApi.processCandidate_dup_none hshareP hdup4] at hproc
  exact Option.noConfusion hproc

/-- Concrete instantiation of the amended C2 theorem: gDup shares collection
10 with gSeed and has version_parent = gSeed.id, so it is absent from the
result. -/
theorem claim2_witness : recBeta.id ≠ gDup.id :=
  claim2_series_duplicates_never_returned "alpha" [gSeed, gDup, gOk] [] [] [] 5
    (2/5) (3/10) (3/10) (1/2) gSeed gDup [recBeta]
    (by decide) (by decide) (by decide) (by decide) (by decide) (by decide)
    recBeta (by decide)

/-- C3: every record in the result comes from a candidate whose
version_parent is absent, whose parent_game is absent or the seed's id, and
whose game_type is not 14; in particular (with unique catalog ids) a
candidate with game_type 14 never appears. -/
theorem claim3_eligibility_filters
    (liked : String) (catalog : List Game) (covers : List BackendApi.Cover)
    (genreTable themeTable : List BackendApi.NamedDoc) (top_n : ℕ)
    (gw kw tw : ℚ) (pr : Bool) (bonus : ℚ) (seed_game : Game) (l : List BackendApi.RecOut)
    (hnodup : (catalog.map Game.id).Nodup)
    (hseed : findSeed catalog liked = some seed_game)
    (hok : BackendApi.recommend_games_from_mongo liked catalog covers genreTable themeTable
      top_n gw kw tw pr bonus = Except.ok l) :
    (∀ r ∈ l, ∃ game, game ∈ catalog ∧ game.id = r.id ∧ game.version_parent = none
      ∧ (game.parent_game = none ∨ game.parent_game = some seed_game.id)
      ∧ game.game_type ≠ some 14)
  ∧ (∀ g ∈ catalog, g.game_type = some 14 → ∀ r ∈ l, r.id ≠ g.id) := by
  constructor
  · intro r hr
    obtain ⟨game, sg, hg_cat, hg_ne, hproc, hr_eq⟩ :=
      BackendApi.mem_recommend_ok hseed hok hr
    obtain ⟨hgd, hpos, hvp, hpg, hgt⟩ := BackendApi.processCandidate_eq_some hproc
    refine ⟨game, hg_cat, ?_, hvp, hpg, hgt⟩
    rw [hr_eq]
    simp [BackendApi.enrichOne, hgd, BackendApi.projectGame]
  · intro g hg hgt14 r hr hid
    obtain ⟨game, sg, hg_cat, hg_ne, hproc, hr_eq⟩ :=
      BackendApi.mem_recommend_ok hseed hok hr
    obtain ⟨hgd, hpos, hvp, hpg, hgt⟩ := BackendApi.processCandidate_eq_some hproc
    have hid2 : game.id = g.id := by
      rw [hr_eq] at hid
      simpa [BackendApi.enrichOne, hgd, BackendApi.projectGame] using hid
    have hgeq : game = g := List.inj_on_of_nodup_map hnodup hg_cat hg hid2
    rw [hgeq] at hgt
    exact hgt hgt14

/-- Concrete instantiation of the C3 theorem: gDLC has game_type 14 and a
perfect attribute match with gSeed, yet its id never appears. -/
theorem claim3_witness : recBeta.id ≠ gDLC.id :=
  (claim3_eligibility_filters "Alpha" [gSeed, gOk, gDLC] [] [] [] 5 (2/5) (3/10) (3/10)
      false (1/2) gSeed [recBeta] (by decide) (by decide) (by decide)).2
    gDLC (by decide) (by decide) recBeta (by decide)

/-- C4: the seed item never appears in its own result sequence — exclusion is
by id equality with the resolved seed — in both the backend recommender
(against its regex-resolved seed) and the recommend.py script (against its
lowercased-equality-resolved seed). -/
theorem claim4_seed_never_in_results
    (liked : String) (catalog : List Game) (covers : List BackendApi.Cover)
    (genreTable themeTable : List BackendApi.NamedDoc) (top_n : ℕ)
    (gw kw tw : ℚ) (pr : Bool) (bonus : ℚ) (seed_game : Game) (l : List BackendApi.RecOut)
    (hseed : findSeed catalog liked = some seed_game)
    (hok : BackendApi.recommend_games_from_mongo liked catalog covers genreTable themeTable
      top_n gw kw tw pr bonus = Except.ok l) :
    (∀ r ∈ l, r.id ≠ seed_game.id)
  ∧ (∀ seedJ, Recommend.findSeedLower catalog liked = some seedJ →
      ∀ e ∈ Recommend.recommend_games_jaccard liked catalog top_n gw kw tw,
        e.id ≠ seedJ.id) := by
  constructor
  · intro r hr
    obtain ⟨game, sg, hg_cat, hg_ne, hproc, hr_eq⟩ :=
      BackendApi.mem_recommend_ok hseed hok hr
    have hgd := (BackendApi.processCandidate_eq_some hproc).1
    rw [hr_eq]
    simpa [BackendApi.enrichOne, hgd, BackendApi.projectGame] using hg_ne
  · intro seedJ hseedJ e he
    unfold Recommend.recommend_games_jaccard at he
    rw [hseedJ] at he
    have h1 := List.take_subset _ _ he
    have h2 := (mem_sortDesc Recommend.RecEntry.score _ e).1 h1
    obtain ⟨game, hg_cat, hg_some⟩ := List.mem_filterMap.1 h2
    obtain ⟨heid, hne⟩ := Recommend.scoreEntry_eq_some hg_some
    rw [heid]
    exact hne

/-- Concrete instantiation of the C4 theorem at the catalog [gSeed, gOk] with
the lowercase query "alpha": neither the backend record for gOk nor the
script entry for gOk carries the seed id (both lookups resolve gSeed). -/
theorem claim4_witness :
    recBeta.id ≠ gSeed.id
  ∧ (⟨"Beta", 1, 3⟩ : Recommend.RecEntry).id ≠ gSeed.id := by
  have h := claim4_seed_never_in_results "alpha" [gSeed, gOk] [] [] [] 5 (2/5) (3/10) (3/10)
    false (1/2) gSeed [recBeta] (by decide) (by decide)
  exact ⟨h.1 recBeta (by decide), h.2 gSeed (by decide) ⟨"Beta", 1, 3⟩ (by decide)⟩

/-- For a pattern free of PCRE metacharacters, regex matching degenerates to
case-insensitive literal equality of the character lists. -/
theorem reMatch_regexFree (p : List Char) :
    ∀ (s : List Char), (∀ c ∈ p, c ∉ reMetachars) →
      (reMatch p s = true ↔ p.map Char.toLower = s.map Char.toLower) := by
  induction p with
  | nil =>
    intro s hp
    cases s with
    | nil => simp [reMatch]
    | cons c cs => simp [reMatch]
  | cons a ps ih =>
    intro s hp
    have ha : a ∉ reMetachars := hp a (List.mem_cons_self a ps)
    have hadot : a ≠ '.' := by
      intro h
      exact ha (by rw [h]; decide)
    have hps : ∀ c ∈ ps, c ∉ reMetachars := fun c hc => hp c (List.mem_cons_of_mem a hc)
    have hatom : ∀ c : Char, atomMatch a c = true ↔ a.toLower = c.toLower := by
      intro c
      simp [atomMatch, hadot]
    cases ps with
    | nil =>
      cases s with
      | nil => simp [reMatch]
      | cons c cs =>
        cases cs with
        | nil => simp [reMatch, hatom]
        | cons d ds => simp [reMatch]
    | cons b ps2 =>
      have hb : b ≠ '?' := by
        intro h
        exact hps b (List.mem_cons_self b ps2) (by rw [h]; decide)
      cases s with
      | nil => simp [reMatch, hb]
      | cons c cs =>
        simp only [reMatch, if_neg hb, Bool.and_eq_true, hatom, List.map_cons,
          List.cons.injEq, ih cs hps]

/-- C5 counterexample: the program's NotFound behavior is NOT "no
case-insensitive exact-name match": the raw name is spliced into the regex
unescaped, so the query "What the Golf?" raises NotFound although the
catalog holds exactly that name (the trailing quantifier makes the f
optional and leaves no literal question mark), while the query "A.C"
resolves the item named "ABC" although no exact match exists — the claimed
iff fails in both directions. -/
theorem claim5_counterexample :
    BackendApi.recommend_games_from_mongo "What the Golf?" [gGolf] [] [] [] 5
        (2/5) (3/10) (3/10) false (1/2)
      = Except.error "Game What the Golf? not found in the database."
  ∧ pyLower gGolf.name = pyLower "What the Golf?"
  ∧ BackendApi.recommend_games_from_mongo "A.C" [gABC] [] [] [] 5
        (2/5) (3/10) (3/10) false (1/2)
      = Except.ok []
  ∧ pyLower gABC.name ≠ pyLower "A.C" :=
  ⟨by decide, by decide, by decide, by decide⟩

/-- C5 (amended): the backend recommender signals its NotFound error exactly
when no catalog name matches the anchored case-insensitive regex built from
the raw seed name; for seed names free of regex metacharacters that matching
coincides with case-insensitive exact-name equality, recovering the claimed
iff; and when the seed is found but every other candidate has non-positive
final score, it returns the empty list, not an error. -/
theorem claim5_notfound_iff_and_empty_ok
    (liked : String) (catalog : List Game) (covers : List BackendApi.Cover)
    (genreTable themeTable : List BackendApi.NamedDoc) (top_n : ℕ)
    (gw kw tw : ℚ) (pr : Bool) (bonus : ℚ) :
    ((∃ msg, BackendApi.recommend_games_from_mongo liked catalog covers genreTable themeTable
        top_n gw kw tw pr bonus = Except.error msg)
      ↔ ∀ g ∈ catalog, ¬ reMatch liked.data g.name.data = true)
  ∧ (regexFree liked = true →
      ∀ g : Game, reMatch liked.data g.name.data = true ↔ pyLower g.name = pyLower liked)
  ∧ (∀ seed_game, findSeed catalog liked = some seed_game →
      (∀ g ∈ catalog, g.id ≠ seed_game.id →
        BackendApi.finalScore gw kw tw pr bonus seed_game g ≤ 0) →
      BackendApi.recommend_games_from_mongo liked catalog covers genreTable themeTable
        top_n gw kw tw pr bonus = Except.ok []) := by
  refine ⟨?_, ?_, ?_⟩
  · constructor
    · rintro ⟨msg, hmsg⟩ g hg hname
      cases hfind : findSeed catalog liked with
      | none =>
        rw [findSeed, List.find?_eq_none] at hfind
        exact hfind g hg hname
      | some seed_game =>
        rw [BackendApi.recommend_ok_eq hfind] at hmsg
        exact Except.noConfusion hmsg
    · intro hnone
      have hfind : findSeed catalog liked = none := by
        rw [findSeed, List.find?_eq_none]
        exact hnone
      refine ⟨"Game " ++ liked ++ " not found in the database.", ?_⟩
      rw [BackendApi.recommend_games_from_mongo, hfind]
  · intro hfree g
    have hp : ∀ c ∈ liked.data, c ∉ reMetachars := by
      intro c hc
      have hall := List.all_eq_true.1 hfree c hc
      exact of_decide_eq_true hall
    rw [reMatch_regexFree liked.data g.name.data hp]
    constructor
    · intro h
      rw [pyLower, pyLower, h]
    · intro h
      have : (pyLower g.name).data = (pyLower liked).data := by rw [h]
      simpa [pyLower] using this.symm
  · intro seed_game hfind hall
    rw [BackendApi.recommend_ok_eq hfind]
    have hfm : List.filterMap (BackendApi.processCandidate seed_game gw kw tw pr bonus)
        ((List.filter (fun g => g.id != seed_game.id) catalog).map BackendApi.projectGame)
          = [] := by
      rw [List.filterMap_eq_nil_iff]
      intro pg hpg
      obtain ⟨g, hg_filter, hg_eq⟩ := List.mem_map.1 hpg
      obtain ⟨hg_cat, hg_ne⟩ := List.mem_filter.1 hg_filter
      rw [← hg_eq]
      exact BackendApi.processCandidate_none_of_nonpos
        (hall g hg_cat (by simpa using hg_ne))
    rw [hfm]
    simp [sortDesc]

/-- Concrete instantiation of the amended C5 theorem: gZero shares no
attribute with gSeed, so every candidate scores 0 and the result is the
empty list. -/
theorem claim5_witness :
    BackendApi.recommend_games_from_mongo "Alpha" [gSeed, gZero] [] [] [] 5
      (2/5) (3/10) (3/10) false (1/2) = Except.ok [] :=
  (claim5_notfound_iff_and_empty_ok "Alpha" [gSeed, gZero] [] [] [] 5
      (2/5) (3/10) (3/10) false (1/2)).2.2 gSeed (by decide) (by decide)

/-- C6: the result list has length at most top_n and at most the number of
retained candidates (eligible with final score > 0); top_n = 0 forces an
empty result; and the returned scores are sorted non-increasingly. -/
theorem claim6_length_and_ranking
    (liked : String) (catalog : List Game) (covers : List BackendApi.Cover)
    (genreTable themeTable : List BackendApi.NamedDoc) (top_n : ℕ)
    (gw kw tw : ℚ) (pr : Bool) (bonus : ℚ) (seed_game : Game) (l : List BackendApi.RecOut)
    (hseed : findSeed catalog liked = some seed_game)
    (hok : BackendApi.recommend_games_from_mongo liked catalog covers genreTable themeTable
      top_n gw kw tw pr bonus = Except.ok l) :
    l.length ≤ top_n
  ∧ l.length ≤ (List.filter (fun g => g.id != seed_game.id) catalog).countP
      (fun g => (BackendApi.processCandidate seed_game gw kw tw pr bonus
        (BackendApi.projectGame g)).isSome)
  ∧ (top_n = 0 → l = [])
  ∧ (l.map BackendApi.RecOut.score).Sorted (fun a b => b ≤ a) := by
  rw [BackendApi.recommend_ok_eq hseed] at hok
  have hl := (Except.ok.inj hok).symm
  subst hl
  refine ⟨?_, ?_, ?_, ?_⟩
  · rw [List.length_map, List.length_take]
    exact min_le_left _ _
  · rw [List.length_map, List.length_take]
    refine le_trans (min_le_right _ _) (le_of_eq ?_)
    rw [length_sortDesc, List.filterMap_map, length_filterMap_eq_countP]
    rfl
  · intro h0
    subst h0
    simp
  · have hp : ((sortDesc BackendApi.ScoredGame.score
        (List.filterMap (BackendApi.processCandidate seed_game gw kw tw pr bonus)
          ((List.filter (fun g => g.id != seed_game.id) catalog).map
            BackendApi.projectGame))).take top_n).Pairwise
        (fun a b => BackendApi.ScoredGame.score b ≤ BackendApi.ScoredGame.score a) :=
      List.Pairwise.sublist (List.take_sublist _ _)
        (sorted_sortDesc BackendApi.ScoredGame.score _)
    rw [List.map_map]
    exact List.Pairwise.map _ (fun a b hab => roundTo4_mono hab) hp

/-- Concrete instantiation of the C6 theorem at the catalog [gSeed, gOk]. -/
theorem claim6_witness :
    [recBeta].length ≤ 5
  ∧ [recBeta].length ≤ (List.filter (fun g => g.id != gSeed.id) [gSeed, gOk]).countP
      (fun g => (BackendApi.processCandidate gSeed (2/5) (3/10) (3/10) false (1/2)
        (BackendApi.projectGame g)).isSome)
  ∧ ([recBeta].map BackendApi.RecOut.score).Sorted (fun a b => b ≤ a) := by
  have h := claim6_length_and_ranking "Alpha" [gSeed, gOk] [] [] [] 5 (2/5) (3/10) (3/10)
    false (1/2) gSeed [recBeta] (by decide) (by decide)
  exact ⟨h.1, h.2.1, h.2.2.2⟩

/-- C8 counterexample: at the present negative timestamp -2114320000 the
enrichment of lines 196-202 converts by standard epoch arithmetic and yields
calendar year 1903, while the claimed formula 1970 + floor(ts / 31556952)
yields 1902 — the average-seconds-per-year branch exists only in the
search-index builder (backend-fastapi/main.py), not in result enrichment. -/
theorem claim8_counterexample :
    BackendApi.releaseYearOf (some (-2114320000)) = some 1903
  ∧ (1970 + Int.fdiv (-2114320000) 31556952 : ℤ) = 1902
  ∧ BackendApi.releaseYearOf (some (-2114320000))
      ≠ some (1970 + Int.fdiv (-2114320000) 31556952) :=
  ⟨by decide, by decide, by decide⟩

/-- C8 (amended): in enrichment of each top-N result, a missing release
timestamp yields an absent year, and a present nonzero timestamp of either
sign is converted to its calendar year by the same standard epoch arithmetic
(modelled as proleptic-Gregorian UTC conversion); no average-seconds-per-year
branch is applied to negative timestamps. The final conjuncts anchor the
conversion around the epoch and the 1970/1971 boundary. -/
theorem claim8_release_year_epoch
    (covers : List BackendApi.Cover) (genreTable themeTable : List BackendApi.NamedDoc)
    (sg : BackendApi.ScoredGame) :
    (sg.game_data.first_release_date = none →
      (BackendApi.enrichOne covers genreTable themeTable sg).release_year = none)
  ∧ (∀ ts : ℤ, sg.game_data.first_release_date = some ts → ts ≠ 0 →
      (BackendApi.enrichOne covers genreTable themeTable sg).release_year
        = some (BackendApi.yearFromTimestamp ts))
  ∧ BackendApi.yearFromTimestamp (-1) = 1969
  ∧ BackendApi.yearFromTimestamp 31535999 = 1970
  ∧ BackendApi.yearFromTimestamp 31536000 = 1971 := by
  refine ⟨?_, ?_, by decide, by decide, by decide⟩
  · intro h
    simp only [BackendApi.enrichOne, BackendApi.releaseYearOf, h]
  · intro ts hts hne
    simp only [BackendApi.enrichOne, BackendApi.releaseYearOf, hts]
    rw [if_neg hne]

/-- Concrete instantiation of the amended C8 theorem at gSeed's timestamp
1000000000 (the year 2001). -/
theorem claim8_witness :
    (BackendApi.enrichOne [] [] [] ⟨gSeed, 1, false⟩).release_year
      = some (BackendApi.yearFromTimestamp 1000000000) :=
  (claim8_release_year_epoch [] [] [] ⟨gSeed, 1, false⟩).2.1 1000000000 rfl (by decide)

/-- C10: a release timestamp equal to exactly 0 is treated like a missing one
by the truthiness test of line 198: the enriched release year is absent,
even though epoch conversion of 0 would give 1970. -/
theorem claim10_zero_timestamp_like_missing
    (covers : List BackendApi.Cover) (genreTable themeTable : List BackendApi.NamedDoc)
    (sg : BackendApi.ScoredGame)
    (h : sg.game_data.first_release_date = some 0) :
    (BackendApi.enrichOne covers genreTable themeTable sg).release_year = none
  ∧ BackendApi.releaseYearOf none = none
  ∧ BackendApi.yearFromTimestamp 0 = 1970 := by
  refine ⟨?_, rfl, by decide⟩
  simp only [BackendApi.enrichOne, BackendApi.releaseYearOf, h]
  rw [if_pos trivial]

/-- Concrete instantiation of the C10 theorem at gZero, whose release
timestamp is exactly 0. -/
theorem claim10_witness :
    (BackendApi.enrichOne [] [] [] ⟨gZero, 1, false⟩).release_year = none :=
  (claim10_zero_timestamp_like_missing [] [] [] ⟨gZero, 1, false⟩ rfl).1

end VGR
